import Mathlib

/-!
CREAM CRI assessment tool: scoring, report, CSV export, filtering and paging

A shallow embedding of the pure logic of

* `src/CRIAssessmentApp.jsx` and `src/cri_assessment_prototype.jsx`
  (`mockAIScore`, `downloadCSV`, `handleGenerateReport`), and
* `src/cri_assessment_prototype_0615.jsx`
  (`filtered`, `currentItems`, `totalPages`, `visiblePages`).

JavaScript strings are sequences of UTF-16 code units; `length` counts code
units and `includes` searches for a run of code units.  A string is therefore
modelled as the list of its code units.  `null`/`undefined` is `none`.
-/

namespace CRI

/-! ## JavaScript values -/

/-- A JavaScript string: the list of its UTF-16 code units. -/
abbrev JSString := List Nat

/-- A string literal of the source (all literals of the source are ASCII, so
one character is one code unit). -/
def lit (s : String) : JSString := s.toList.map Char.toNat

/-- An object used as a map from string keys to values, given by its own
properties: `none` for a key the object has no own property for. What a
property read finds on `Object.prototype` is added by `getProp`. -/
abbrev JSObject (α : Type) := JSString → Option α

/-- The object literal with no own property. -/
def emptyObject {α : Type} : JSObject α := fun _ => none

/-- The spread update of the source: every key of `prev` and then `k` set to `v`. -/
def setKey {α : Type} (prev : JSObject α) (k : JSString) (v : α) : JSObject α :=
  fun j => if j = k then some v else prev j

/-- The method `String.prototype.includes(needle)`: whether `needle` occurs in
`s` starting at some index. -/
def includes : JSString → JSString → Bool
  | [], needle => needle.isPrefixOf []
  | c :: cs, needle => needle.isPrefixOf (c :: cs) || includes cs needle

/-- Truthiness of a string-or-null value: `null`, `undefined` and the empty
string are falsy, every other string is truthy. -/
def truthy : Option JSString → Bool
  | none => false
  | some [] => false
  | some (_ :: _) => true

/-- The expression `a || d` for a string-or-undefined `a` and a string `d`. -/
def orDefault (a : Option JSString) (d : JSString) : JSString :=
  match a with
  | none => d
  | some [] => d
  | some (c :: cs) => c :: cs

/-- The method `Array.prototype.slice(s, e)`: negative arguments count from the
end, both are clamped to the array, and an empty range gives the empty array. -/
def jsSlice {α : Type} (xs : List α) (s e : Int) : List α :=
  let len : Int := xs.length
  let k : Int := if s < 0 then max (len + s) 0 else min s len
  let final : Int := if e < 0 then max (len + e) 0 else min e len
  (xs.drop k.toNat).take (final - k).toNat

/-- The method `Array.prototype.join(sep)` on an array of strings. -/
def jsJoin (sep : JSString) : List JSString → JSString
  | [] => []
  | [x] => x
  | x :: y :: rest => x ++ sep ++ jsJoin sep (y :: rest)

/-- Decimal digits of a number, most significant first, pushed in front of `acc`. -/
def digitsAux : Nat → Nat → JSString → JSString
  | 0, _, acc => acc
  | fuel + 1, n, acc =>
    if n / 10 = 0 then (48 + n % 10) :: acc
    else digitsAux fuel (n / 10) ((48 + n % 10) :: acc)

/-- The string a template literal gives for a non-negative integer number. -/
def numberToString (n : Nat) : JSString := digitsAux (n + 1) n []

/-! ## Scoring rule: `mockAIScore` -/

/-- The object `{ score, confidence }` returned by `mockAIScore`. -/
structure ScoreResult where
  score : Nat
  confidence : JSString
deriving DecidableEq, Repr

/-- The function `mockAIScore(response)` of `CRIAssessmentApp.jsx`, lines 16-21
(the same body in both prototypes). -/
def mockAIScore (response : Option JSString) : ScoreResult :=
  match response with
  | none => { score := 0, confidence := lit "Low" }
  | some [] => { score := 0, confidence := lit "Low" }
  | some (c :: cs) =>
    if includes (c :: cs) (lit "least privilege") || includes (c :: cs) (lit "inventory") then
      { score := 3, confidence := lit "High" }
    else if (c :: cs).length > 40 then
      { score := 2, confidence := lit "Medium" }
    else
      { score := 1, confidence := lit "Low" }

/-! ## Report builder: `handleGenerateReport` -/

/-- A value read from a property of one of the plain objects `responses` and
`evidence`: a recorded string, or one of the functions and objects that every
plain object inherits from `Object.prototype`. -/
inductive JSValue where
  | str (s : JSString)
  | inherited
deriving DecidableEq, Repr

/-- The property names of `Object.prototype` (ECMAScript, Annex B included):
reading one of them on a plain object that has no own property of that name
gives an inherited function, or for `__proto__` the prototype object. -/
def objectPrototypeKeys : List JSString :=
  [lit "constructor", lit "hasOwnProperty", lit "isPrototypeOf",
   lit "propertyIsEnumerable", lit "toLocaleString", lit "toString", lit "valueOf",
   lit "__proto__", lit "__defineGetter__", lit "__defineSetter__",
   lit "__lookupGetter__", lit "__lookupSetter__"]

/-- The property read `obj[key]` on a plain object: the own property when there
is one, else the property inherited from `Object.prototype` when the key names
one, else `undefined`. -/
def getProp (obj : JSObject JSString) (key : JSString) : Option JSValue :=
  match obj key with
  | some s => some (JSValue.str s)
  | none => if key ∈ objectPrototypeKeys then some JSValue.inherited else none

/-- The expression `a || d` for a property value `a` and a string `d`: an
inherited function or object is truthy and is kept. -/
def valueOrDefault (a : Option JSValue) (d : JSString) : JSValue :=
  match a with
  | none => JSValue.str d
  | some (JSValue.str s) => JSValue.str (orDefault (some s) d)
  | some JSValue.inherited => JSValue.inherited

/-- The exception a handler can throw. -/
inductive JSError where
  | typeError
deriving DecidableEq, Repr

/-- A diagnostic of the catalog as `handleGenerateReport` reads it. -/
structure Diagnostic where
  id : JSString
  title : JSString
deriving DecidableEq, Repr

/-- One row as `downloadCSV` renders it: every field a string, the score a
number. -/
structure ReportRow where
  id : JSString
  title : JSString
  response : JSString
  confidence : JSString
  score : Nat
  evidence : JSString
deriving DecidableEq, Repr

/-- One row as `handleGenerateReport` builds it: the response is a string (a
row is built only when `mockAIScore` returns), the evidence is whatever the
read of the evidence map gave. -/
structure SummaryRow where
  id : JSString
  title : JSString
  response : JSString
  confidence : JSString
  score : Nat
  evidence : JSValue
deriving DecidableEq, Repr

/-- The body of `diagnostics.map` in `handleGenerateReport`. When the response
read is an inherited function or object, `mockAIScore` passes its falsy guard
and the call `response.includes(...)` throws a TypeError, as neither a function
nor `Object.prototype` has a method `includes`. -/
def reportRow (responses evidence : JSObject JSString) (diag : Diagnostic) :
    Except JSError SummaryRow :=
  let response := valueOrDefault (getProp responses diag.id) (lit "Not answered")
  let evd := valueOrDefault (getProp evidence diag.id) (lit "None")
  match response with
  | JSValue.inherited => Except.error JSError.typeError
  | JSValue.str r =>
    let aiEval := mockAIScore (some r)
    Except.ok
      { id := diag.id
        title := diag.title
        response := r
        confidence := aiEval.confidence
        score := aiEval.score
        evidence := evd }

/-- The rows `handleGenerateReport` stores as the summary data; an exception
of the map callback leaves the handler before any row is stored. -/
def handleGenerateReport (diagnostics : List Diagnostic)
    (responses evidence : JSObject JSString) : Except JSError (List SummaryRow) :=
  match diagnostics with
  | [] => Except.ok []
  | diag :: rest =>
    match reportRow responses evidence diag with
    | Except.error e => Except.error e
    | Except.ok row =>
      match handleGenerateReport rest responses evidence with
      | Except.error e => Except.error e
      | Except.ok rows => Except.ok (row :: rows)

/-! ## CSV exporter: `downloadCSV` -/

/-- The fixed first line of the CSV text. -/
def csvHeader : JSString := lit "Diagnostic ID,Title,Response,Confidence,Score,Evidence"

/-- The template literal that renders one row. -/
def csvLine (item : ReportRow) : JSString :=
  item.id ++ lit "," ++ item.title ++ lit "," ++ item.response ++ lit "," ++
    item.confidence ++ lit "," ++ numberToString item.score ++ lit "," ++ item.evidence

/-- The text `downloadCSV` builds after the data-URI prefix and before
`encodeURI`: the header and the row lines joined by a line feed. -/
def csvText (data : List ReportRow) : JSString :=
  jsJoin (lit "\n") ([csvHeader].append (data.map csvLine))

/-- The string `downloadCSV` passes to `encodeURI`. -/
def csvContent (data : List ReportRow) : JSString :=
  lit "data:text/csv;charset=utf-8," ++ csvText data

/-! ## Filter and pagination view (`cri_assessment_prototype_0615.jsx`) -/

/-- Modelled from the spec: the row type of the `diagnosticstatements` table is
not in the source. The filter reads the four tier columns `tier1` to `tier4`
and `tags`; following the data model of the specification ("zero or more tags
(strings)") `tags` is an array of strings, `none` when the column is null. -/
structure DiagnosticStatement where
  id : JSString
  tier1 : Bool
  tier2 : Bool
  tier3 : Bool
  tier4 : Bool
  tags : Option (List JSString)
deriving DecidableEq, Repr

/-- The property read `d[tier N]`: the rows carry the columns `tier1` to
`tier4`, any other key is `undefined` and so falsy. -/
def tierFlag (d : DiagnosticStatement) (t : Nat) : Bool :=
  match t with
  | 1 => d.tier1
  | 2 => d.tier2
  | 3 => d.tier3
  | 4 => d.tier4
  | _ => false

/-- The test `selectedTiers.some(t => d[tier t])`. -/
def matchTier (selectedTiers : List Nat) (d : DiagnosticStatement) : Bool :=
  selectedTiers.any (fun t => tierFlag d t)

/-- The test `selectedTag ? d.tags?.includes(selectedTag) : true`, read for its
truthiness: `undefined` (no tag array) is falsy. -/
def matchTag (selectedTag : JSString) (d : DiagnosticStatement) : Bool :=
  if truthy (some selectedTag) then
    match d.tags with
    | none => false
    | some ts => ts.contains selectedTag
  else true

/-- The array `filtered` of line 92. -/
def filtered (diagnostics : List DiagnosticStatement) (selectedTiers : List Nat)
    (selectedTag : JSString) : List DiagnosticStatement :=
  diagnostics.filter (fun d => matchTier selectedTiers d && matchTag selectedTag d)

/-- The constant `itemsPerPage`. -/
def itemsPerPage : Nat := 10

/-- The value `startIndex` of line 91. -/
def startIndex (currentPage : Int) : Int := (currentPage - 1) * itemsPerPage

/-- The slice of line 97, for a filtered list of any element type. -/
def pageItems {α : Type} (filteredList : List α) (currentPage : Int) : List α :=
  jsSlice filteredList (startIndex currentPage) (startIndex currentPage + itemsPerPage)

/-- The array `currentItems` of line 97. -/
def currentItems (diagnostics : List DiagnosticStatement) (selectedTiers : List Nat)
    (selectedTag : JSString) (currentPage : Int) : List DiagnosticStatement :=
  pageItems (filtered diagnostics selectedTiers selectedTag) currentPage

/-- The value of `Math.ceil(a / b)` for an array length `a` and a positive
integer `b`: the quotient, one more when the division leaves a remainder. -/
def mathCeilDiv (a b : Nat) : Nat :=
  if a % b = 0 then a / b else a / b + 1

/-- The value `totalPages` of line 98, for a filtered list of any element type. -/
def totalPages {α : Type} (filteredList : List α) : Nat :=
  mathCeilDiv filteredList.length itemsPerPage

/-- The array `visiblePages` of lines 99-102, from the number of pages and the
current page. -/
def visiblePages (total : Nat) (currentPage : Int) : List Nat :=
  jsSlice ((List.range total).map (fun i => i + 1))
    (max (currentPage - 2) 0) (min (currentPage + 2) total)

/-! ## The naive reader of the CSV text

The source has no CSV reader; the round trip is stated against the reader the
specification describes: split the text at line feeds, drop the header line,
split every other line at commas. -/

/-- The method `String.prototype.split(sep)` for a separator of one code unit. -/
def splitOn (sep : Nat) : JSString → List JSString
  | [] => [[]]
  | c :: cs =>
    if c = sep then [] :: splitOn sep cs
    else
      match splitOn sep cs with
      | [] => [[c]]
      | field :: rest => (c :: field) :: rest

/-- The naive comma-split reader of the specification. -/
def naiveParse (text : JSString) : List (List JSString) :=
  ((splitOn 10 text).drop 1).map (splitOn 44)

/-- The six field values of a row in column order, the score as the template
literal prints it. -/
def rowFields (item : ReportRow) : List JSString :=
  [item.id, item.title, item.response, item.confidence, numberToString item.score, item.evidence]

/-! ## The page window as the specification words it -/

/-- The ascending list of the pages `p` with
`max(1, currentPage - 2) ≤ p ≤ min(total, currentPage + 2)`. -/
def centredWindow (total : Nat) (currentPage : Int) : List Nat :=
  (List.range (total + 1)).filter
    (fun p => decide (max 1 (currentPage - 2) ≤ (p : Int) ∧
      (p : Int) ≤ min (total : Int) (currentPage + 2)))

/-! ## Evidence upload: `handleFileUpload`, `handleEvidenceUpload` -/

/-- What awaiting `supabase.storage.from("evidence").upload(path, file)` gives:
the result `{ data, error: null }` with the stored path in `data.path`, the
result `{ data: null, error }`, or an exception. -/
inductive UploadOutcome where
  | stored (path : JSString)
  | failed
  | thrown
deriving DecidableEq, Repr

/-- How the promise of an async handler settles. -/
inductive Completion where
  | fulfilled
  | rejected
deriving DecidableEq, Repr

/-- The template literal that joins the id, a slash and `file.name`. -/
def uploadPath (id name : JSString) : JSString := id ++ lit "/" ++ name

/-- The handler `handleFileUpload` of `cri_assessment_prototype.jsx`, lines
80-91, as a function of the evidence map it updates. The file is given by its
name, `none` when no file was chosen; `upload` is the evidence store. A store
error is thrown inside the `try` and, like an exception of the store, caught
and logged. -/
def handleFileUpload (evidence : JSObject JSString) (id : JSString) (file : Option JSString)
    (upload : JSString → UploadOutcome) : JSObject JSString × Completion :=
  match file with
  | none => (evidence, Completion.fulfilled)
  | some name =>
    match upload (uploadPath id name) with
    | UploadOutcome.stored path => (setKey evidence id path, Completion.fulfilled)
    | UploadOutcome.failed => (evidence, Completion.fulfilled)
    | UploadOutcome.thrown => (evidence, Completion.fulfilled)

/-- The handler `handleFileUpload` of `CRIAssessmentApp.jsx`, lines 66-73: no
guard on the file and no `try`, so reading `file.name` of no file and an
exception of the store reject the promise before any state update. -/
def App.handleFileUpload (evidence : JSObject JSString) (id : JSString)
    (file : Option JSString) (upload : JSString → UploadOutcome) :
    JSObject JSString × Completion :=
  match file with
  | none => (evidence, Completion.rejected)
  | some name =>
    match upload (uploadPath id name) with
    | UploadOutcome.stored path => (setKey evidence id path, Completion.fulfilled)
    | UploadOutcome.failed => (evidence, Completion.fulfilled)
    | UploadOutcome.thrown => (evidence, Completion.rejected)

/-! ## Component state of `CRIAssessmentPlatform` (`cri_assessment_prototype_0615.jsx`) -/

/-- The three maps of the component state that the handlers write. -/
structure PlatformState where
  responses : JSObject JSString
  evidenceFiles : JSObject JSString
  aiScores : JSObject ScoreResult

/-- The state after `useState({})` for each of the three maps. -/
def initialState : PlatformState :=
  { responses := emptyObject, evidenceFiles := emptyObject, aiScores := emptyObject }

/-- The handler `handleResponseChange` of lines 38-50: both maps are updated
for `id` before the remote upsert is awaited; the upsert writes no component
state. -/
def handleResponseChange (s : PlatformState) (id value : JSString) : PlatformState :=
  let ai := mockAIScore (some value)
  { responses := setKey s.responses id value
    evidenceFiles := s.evidenceFiles
    aiScores := setKey s.aiScores id ai }

/-- The handler `handleEvidenceUpload` of lines 52-60: without a file it
returns at once; when the store reports no error the built path (not the path
the store returns) is recorded for `id`; the remote update that follows writes
no component state. -/
def handleEvidenceUpload (s : PlatformState) (id : JSString) (file : Option JSString)
    (upload : JSString → UploadOutcome) : PlatformState :=
  match file with
  | none => s
  | some name =>
    match upload (uploadPath id name) with
    | UploadOutcome.stored _ =>
      { responses := s.responses
        evidenceFiles := setKey s.evidenceFiles id (uploadPath id name)
        aiScores := s.aiScores }
    | UploadOutcome.failed => s
    | UploadOutcome.thrown => s

/-- One user operation on the component. -/
inductive PlatformOp where
  | responseChange (id value : JSString)
  | evidenceUpload (id : JSString) (file : Option JSString) (outcome : UploadOutcome)
deriving DecidableEq, Repr

/-- The state after one operation. -/
def applyOp (s : PlatformState) (op : PlatformOp) : PlatformState :=
  match op with
  | PlatformOp.responseChange id value => handleResponseChange s id value
  | PlatformOp.evidenceUpload id file outcome =>
    handleEvidenceUpload s id file (fun _ => outcome)

/-- The state after a finite sequence of operations, first to last. -/
def runOps (s : PlatformState) (ops : List PlatformOp) : PlatformState :=
  ops.foldl applyOp s

/-! ## Example data -/

/-- A row whose response holds a line feed (typed into the text area) and whose
fields hold no comma. -/
def lineFeedRow : ReportRow :=
  { id := lit "CRI-01", title := lit "T", response := lit "a\nb",
    confidence := lit "Low", score := 1, evidence := lit "None" }

/-- A row with no comma and no line feed in any field. -/
def plainRow : ReportRow :=
  { id := lit "CRI-01", title := lit "Asset Inventory", response := lit "Partial",
    confidence := lit "Low", score := 1, evidence := lit "None" }

/-- A small catalog: a tier-1 item tagged "iam", a tier-2 item without tags,
and an item of tiers 1 and 3 tagged "asset". -/
def sampleCatalog : List DiagnosticStatement :=
  [{ id := lit "D1", tier1 := true, tier2 := false, tier3 := false, tier4 := false,
     tags := some [lit "iam"] },
   { id := lit "D2", tier1 := false, tier2 := true, tier3 := false, tier4 := false,
     tags := none },
   { id := lit "D3", tier1 := true, tier2 := false, tier3 := true, tier4 := false,
     tags := some [lit "asset"] }]

/-- The row built for a diagnostic from the own properties of the two maps
alone; `reportRow` returns it when the id names no inherited property. -/
def ownRow (responses evidence : JSObject JSString) (diag : Diagnostic) : SummaryRow :=
  { id := diag.id
    title := diag.title
    response := orDefault (responses diag.id) (lit "Not answered")
    confidence := (mockAIScore (some (orDefault (responses diag.id) (lit "Not answered")))).confidence
    score := (mockAIScore (some (orDefault (responses diag.id) (lit "Not answered")))).score
    evidence := JSValue.str (orDefault (evidence diag.id) (lit "None")) }

/-- The catalog of the example scenario of the specification. -/
def exampleCatalog : List Diagnostic :=
  [{ id := lit "CRI-01", title := lit "Asset Inventory" },
   { id := lit "CRI-02", title := lit "Access Controls" }]

/-- The responses of the example scenario. -/
def exampleResponses : JSObject JSString :=
  setKey (setKey emptyObject (lit "CRI-01") (lit "We keep a full inventory"))
    (lit "CRI-02") (lit "Partial")

/-- The report rows of the example scenario. -/
def exampleRows : List SummaryRow :=
  [{ id := lit "CRI-01", title := lit "Asset Inventory",
     response := lit "We keep a full inventory",
     confidence := lit "High", score := 3, evidence := JSValue.str (lit "None") },
   { id := lit "CRI-02", title := lit "Access Controls",
     response := lit "Partial",
     confidence := lit "Low", score := 1, evidence := JSValue.str (lit "None") }]

/-- A catalog of one diagnostic with the id "CRI-01". -/
def oneItemCatalog : List Diagnostic :=
  [{ id := lit "CRI-01", title := lit "Asset Inventory" }]

/-- The row reported for "CRI-01" when its response is missing or empty. -/
def notAnsweredRow : SummaryRow :=
  { id := lit "CRI-01", title := lit "Asset Inventory", response := lit "Not answered",
    confidence := lit "Low", score := 1, evidence := JSValue.str (lit "None") }

/-- A catalog of one diagnostic whose id is "toString". -/
def toStringCatalog : List Diagnostic :=
  [{ id := lit "toString", title := lit "Access Controls" }]

/-- The row reported for the id "toString" with the response "Yes" recorded and
no evidence recorded: the evidence read gives the inherited function. -/
def toStringRow : SummaryRow :=
  { id := lit "toString", title := lit "Access Controls", response := lit "Yes",
    confidence := lit "Low", score := 1, evidence := JSValue.inherited }

/-- A catalog of one diagnostic whose id is "constructor". -/
def constructorCatalog : List Diagnostic :=
  [{ id := lit "constructor", title := lit "Asset Inventory" }]

/-! ## Helper lemmas -/

theorem includes_iff_infix (s needle : JSString) :
    includes s needle = true ↔ List.IsInfix needle s := by
  induction s with
  | nil => simp [includes, List.isPrefixOf_iff_prefix]
  | cons c cs ih =>
    simp only [includes, Bool.or_eq_true, List.isPrefixOf_iff_prefix, ih, List.infix_cons_iff]

theorem jsJoin_cons (sep x : JSString) (xs : List JSString) :
    jsJoin sep (x :: xs) = x ++ (xs.map (fun y => sep ++ y)).flatten := by
  induction xs generalizing x with
  | nil => simp [jsJoin]
  | cons y ys ih => simp [jsJoin, ih, List.append_assoc]

theorem csvLine_eq_join (item : ReportRow) :
    csvLine item = jsJoin (lit ",") (rowFields item) := by
  simp [csvLine, rowFields, jsJoin, List.append_assoc]

theorem csvText_eq_flatten (data : List ReportRow) :
    csvText data =
      csvHeader ++
        (data.map (fun item => lit "\n" ++ jsJoin (lit ",") (rowFields item))).flatten := by
  have h : csvText data = jsJoin (lit "\n") (csvHeader :: data.map csvLine) := rfl
  rw [h, jsJoin_cons, List.map_map]
  congr 2
  apply List.map_congr_left
  intro item _
  simp only [Function.comp, csvLine_eq_join]

theorem splitOn_of_not_mem (sep : Nat) (s : JSString) (h : sep ∉ s) :
    splitOn sep s = [s] := by
  induction s with
  | nil => rfl
  | cons c cs ih =>
    have hc : c ≠ sep := fun e => h (by simp [e])
    have hcs : sep ∉ cs := fun m => h (List.mem_cons_of_mem _ m)
    simp [splitOn, hc, ih hcs]

theorem splitOn_append_sep (sep : Nat) (a b : JSString) (h : sep ∉ a) :
    splitOn sep (a ++ sep :: b) = a :: splitOn sep b := by
  induction a with
  | nil => simp [splitOn]
  | cons c cs ih =>
    have hc : c ≠ sep := fun e => h (by simp [e])
    have hcs : sep ∉ cs := fun m => h (List.mem_cons_of_mem _ m)
    simp [splitOn, hc, ih hcs]

theorem splitOn_jsJoin (sep : Nat) (x : JSString) (xs : List JSString)
    (h : ∀ y ∈ x :: xs, sep ∉ y) :
    splitOn sep (jsJoin [sep] (x :: xs)) = x :: xs := by
  induction xs generalizing x with
  | nil => simpa [jsJoin] using splitOn_of_not_mem sep x (h x (by simp))
  | cons y ys ih =>
    have hx : sep ∉ x := h x (by simp)
    have hrest : ∀ z ∈ y :: ys, sep ∉ z := fun z hz => h z (List.mem_cons_of_mem _ hz)
    have e : jsJoin [sep] (x :: y :: ys) = x ++ sep :: jsJoin [sep] (y :: ys) := by
      simp [jsJoin]
    rw [e, splitOn_append_sep sep x _ hx, ih y hrest]

theorem digitsAux_mem (fuel n : Nat) (acc : JSString) (x : Nat)
    (h : x ∈ digitsAux fuel n acc) : x ∈ acc ∨ (48 ≤ x ∧ x ≤ 57) := by
  induction fuel generalizing n acc with
  | zero => exact Or.inl h
  | succ fuel ih =>
    unfold digitsAux at h
    split at h
    · rcases List.mem_cons.mp h with h | h
      · right; omega
      · exact Or.inl h
    · rcases ih _ _ h with h | h
      · rcases List.mem_cons.mp h with h | h
        · right; omega
        · exact Or.inl h
      · exact Or.inr h

theorem numberToString_digit (n x : Nat) (h : x ∈ numberToString n) : 48 ≤ x ∧ x ≤ 57 := by
  rcases digitsAux_mem (n + 1) n [] x h with h | h
  · simp at h
  · exact h

theorem csvLine_not_mem (sep : Nat) (hsep : sep ≠ 44) (hdig : sep < 48) (item : ReportRow)
    (h : sep ∉ item.id ∧ sep ∉ item.title ∧ sep ∉ item.response ∧
      sep ∉ item.confidence ∧ sep ∉ item.evidence) : sep ∉ csvLine item := by
  obtain ⟨h1, h2, h3, h4, h5⟩ := h
  have hn : sep ∉ numberToString item.score := fun m => by
    have := numberToString_digit _ _ m
    omega
  have hc : sep ∉ lit "," := by
    have e : lit "," = [44] := rfl
    rw [e]
    simpa using hsep
  simp only [csvLine, List.mem_append, not_or]
  exact ⟨⟨⟨⟨⟨⟨⟨⟨⟨⟨h1, hc⟩, h2⟩, hc⟩, h3⟩, hc⟩, h4⟩, hc⟩, hn⟩, hc⟩, h5⟩

theorem jsSlice_sublist {α : Type} (xs : List α) (s e : Int) :
    List.Sublist (jsSlice xs s e) xs :=
  (List.take_sublist _ _).trans (List.drop_sublist _ _)

theorem pageItems_length_le {α : Type} (xs : List α) (currentPage : Int)
    (h : 1 ≤ currentPage) : (pageItems xs currentPage).length ≤ 10 := by
  simp only [pageItems, jsSlice, startIndex, itemsPerPage, List.length_take]
  have h1 : ¬ (currentPage - 1) * ((10 : Nat) : Int) < 0 := by push_cast; omega
  have h2 : ¬ (currentPage - 1) * ((10 : Nat) : Int) + ((10 : Nat) : Int) < 0 := by
    push_cast; omega
  rw [if_neg h1, if_neg h2]
  push_cast
  omega

theorem mathCeilDiv_mul_ge (a : Nat) : a ≤ mathCeilDiv a 10 * 10 := by
  unfold mathCeilDiv
  split <;> omega

theorem pageItems_beyond {α : Type} (xs : List α) (currentPage : Int)
    (h : (totalPages xs : Int) < currentPage) : pageItems xs currentPage = [] := by
  have hlen := mathCeilDiv_mul_ge xs.length
  have hstart : (xs.length : Int) ≤ (currentPage - 1) * 10 := by
    unfold totalPages itemsPerPage at h
    omega
  simp only [pageItems, jsSlice, startIndex, itemsPerPage]
  have h1 : ¬ (currentPage - 1) * ((10 : Nat) : Int) < 0 := by push_cast; omega
  rw [if_neg h1]
  have hk : (min ((currentPage - 1) * ((10 : Nat) : Int)) (xs.length : Int)).toNat
      = xs.length := by
    push_cast; omega
  rw [hk, List.drop_length]
  simp

theorem mem_filtered_iff (diagnostics : List DiagnosticStatement) (selectedTiers : List Nat)
    (selectedTag : JSString) (d : DiagnosticStatement) :
    d ∈ filtered diagnostics selectedTiers selectedTag ↔
      d ∈ diagnostics ∧ (∃ t ∈ selectedTiers, tierFlag d t = true) ∧
        (selectedTag ≠ [] → ∃ ts, d.tags = some ts ∧ selectedTag ∈ ts) := by
  simp only [filtered, List.mem_filter, Bool.and_eq_true, matchTier, List.any_eq_true]
  have ht : matchTag selectedTag d = true ↔
      (selectedTag ≠ [] → ∃ ts, d.tags = some ts ∧ selectedTag ∈ ts) := by
    cases selectedTag with
    | nil => simp [matchTag, truthy]
    | cons c cs =>
      cases htags : d.tags with
      | none => simp [matchTag, truthy, htags]
      | some ts => simp [matchTag, truthy, htags]
  rw [ht]

/-- For a current page within `1 .. total` the page buttons are the pages from
`max(1, currentPage - 1)` to `min(total, currentPage + 2)`. -/
theorem visiblePages_eq_window (total current : Nat) (h1 : 1 ≤ current)
    (h2 : current ≤ total) :
    visiblePages total current =
      List.range' (max 1 (current - 1)) (min total (current + 2) + 1 - max 1 (current - 1)) := by
  have hr : (List.range total).map (fun i => i + 1) = List.range' 1 total := by
    rw [List.range'_eq_map_range]
    apply List.map_congr_left
    intro a _
    omega
  unfold visiblePages jsSlice
  rw [hr]
  simp only [List.length_range']
  have h3 : ¬ max ((current : Int) - 2) 0 < 0 := by omega
  have h4 : ¬ min ((current : Int) + 2) (total : Int) < 0 := by omega
  rw [if_neg h3, if_neg h4]
  apply List.ext_getElem
  · simp only [List.length_take, List.length_drop, List.length_range']
    omega
  · intro i hi1 hi2
    simp only [List.getElem_take, List.getElem_drop, List.getElem_range']
    omega

/-! ## Scoring rule -/

/-- C1: every response text that contains the substring "least privilege" or
the substring "inventory" is scored 3 with confidence "High", whatever its length. -/
theorem mockAIScore_keyword (response : JSString)
    (h : List.IsInfix (lit "least privilege") response ∨
      List.IsInfix (lit "inventory") response) :
    mockAIScore (some response) = { score := 3, confidence := lit "High" } := by
  have hinc : (includes response (lit "least privilege") ||
      includes response (lit "inventory")) = true := by
    simpa only [Bool.or_eq_true, includes_iff_infix] using h
  cases response with
  | nil =>
    rcases h with h | h
    · exact absurd (List.eq_nil_of_infix_nil h) (by decide)
    · exact absurd (List.eq_nil_of_infix_nil h) (by decide)
  | cons c cs => simp only [mockAIScore, hinc, if_true]

theorem mockAIScore_keyword_witness :
    (List.IsInfix (lit "least privilege") (lit "We keep a full inventory") ∨
      List.IsInfix (lit "inventory") (lit "We keep a full inventory")) ∧
    mockAIScore (some (lit "We keep a full inventory")) =
      { score := 3, confidence := lit "High" } :=
  ⟨by decide, mockAIScore_keyword (lit "We keep a full inventory") (by decide)⟩

/-- C2: a response that contains neither "least privilege" nor "inventory" is
scored (0, "Low") when it is null or the empty string, (2, "Medium") when it is
non-empty and longer than 40, and (1, "Low") when it is non-empty and of length
at most 40; so length 40 scores 1 and length 41 scores 2. -/
theorem mockAIScore_no_keyword (response : Option JSString)
    (h : ∀ s, response = some s →
      ¬ List.IsInfix (lit "least privilege") s ∧ ¬ List.IsInfix (lit "inventory") s) :
    ((response = none ∨ response = some []) →
        mockAIScore response = { score := 0, confidence := lit "Low" }) ∧
    (∀ s, response = some s → s ≠ [] → s.length > 40 →
        mockAIScore response = { score := 2, confidence := lit "Medium" }) ∧
    (∀ s, response = some s → s ≠ [] → s.length ≤ 40 →
        mockAIScore response = { score := 1, confidence := lit "Low" }) ∧
    (∀ s, response = some s → s.length = 40 →
        mockAIScore response = { score := 1, confidence := lit "Low" }) ∧
    (∀ s, response = some s → s.length = 41 →
        mockAIScore response = { score := 2, confidence := lit "Medium" }) := by
  have key : ∀ s : JSString, response = some s → s ≠ [] →
      mockAIScore response =
        if s.length > 40 then { score := 2, confidence := lit "Medium" }
        else { score := 1, confidence := lit "Low" } := by
    intro s hs hne
    subst hs
    obtain ⟨h1, h2⟩ := h s rfl
    have e1 : includes s (lit "least privilege") = false := by
      rw [← Bool.not_eq_true, includes_iff_infix]; exact h1
    have e2 : includes s (lit "inventory") = false := by
      rw [← Bool.not_eq_true, includes_iff_infix]; exact h2
    cases s with
    | nil => exact absurd rfl hne
    | cons c cs => simp only [mockAIScore, e1, e2, Bool.or_self, Bool.false_eq_true, if_false]
  refine ⟨?_, ?_, ?_, ?_, ?_⟩
  · rintro (h0 | h0) <;> subst h0 <;> rfl
  · intro s hs hne hlen
    rw [key s hs hne, if_pos hlen]
  · intro s hs hne hlen
    rw [key s hs hne, if_neg (by omega)]
  · intro s hs hlen
    have hne : s ≠ [] := by intro h0; subst h0; simp at hlen
    rw [key s hs hne, if_neg (by omega)]
  · intro s hs hlen
    have hne : s ≠ [] := by intro h0; subst h0; simp at hlen
    rw [key s hs hne, if_pos (by omega)]

theorem mockAIScore_no_keyword_witness :
    (¬ List.IsInfix (lit "least privilege") (lit "Partial") ∧
      ¬ List.IsInfix (lit "inventory") (lit "Partial")) ∧
    mockAIScore (some (lit "Partial")) = { score := 1, confidence := lit "Low" } :=
  ⟨by decide,
    (mockAIScore_no_keyword (some (lit "Partial"))
      (by intro s hs; cases hs; decide)).2.2.1 (lit "Partial") rfl (by decide) (by decide)⟩

/-! ## Report builder -/

theorem getProp_of_plain_key (obj : JSObject JSString) (key : JSString)
    (h : key ∉ objectPrototypeKeys) : getProp obj key = (obj key).map JSValue.str := by
  unfold getProp
  cases obj key with
  | none => simp [h]
  | some s => rfl

theorem valueOrDefault_str (a : Option JSString) (d : JSString) :
    valueOrDefault (a.map JSValue.str) d = JSValue.str (orDefault a d) := by
  cases a with
  | none => rfl
  | some s => rfl

theorem reportRow_of_plain_id (responses evidence : JSObject JSString) (d : Diagnostic)
    (h : d.id ∉ objectPrototypeKeys) :
    reportRow responses evidence d = Except.ok (ownRow responses evidence d) := by
  simp only [reportRow, getProp_of_plain_key _ _ h, valueOrDefault_str, ownRow]

theorem handleGenerateReport_of_plain_ids (catalog : List Diagnostic)
    (responses evidence : JSObject JSString)
    (hid : ∀ d ∈ catalog, d.id ∉ objectPrototypeKeys) :
    handleGenerateReport catalog responses evidence =
      Except.ok (catalog.map (ownRow responses evidence)) := by
  induction catalog with
  | nil => rfl
  | cons d rest ih =>
    have hd : d.id ∉ objectPrototypeKeys := hid d (List.mem_cons_self _ _)
    have hrest : ∀ x ∈ rest, x.id ∉ objectPrototypeKeys :=
      fun x hx => hid x (List.mem_cons_of_mem _ hx)
    simp only [handleGenerateReport, reportRow_of_plain_id _ _ _ hd, ih hrest, List.map_cons]

/-- C3 fails as stated: the catalog item CRI-01 has the recorded response ""
(the empty string), and its report row carries "Not answered", not the
recorded response. And for a catalog item with the id "toString", a response
recorded and no evidence recorded, the evidence of the row is the function
inherited from `Object.prototype`, not the literal "None". -/
theorem handleGenerateReport_recorded_empty_counterexample :
    setKey emptyObject (lit "CRI-01") (lit "") (lit "CRI-01") = some (lit "") ∧
    handleGenerateReport oneItemCatalog (setKey emptyObject (lit "CRI-01") (lit ""))
        emptyObject = Except.ok [notAnsweredRow] ∧
    notAnsweredRow.response = lit "Not answered" ∧
    lit "Not answered" ≠ lit "" ∧
    (emptyObject : JSObject JSString) (lit "toString") = none ∧
    handleGenerateReport toStringCatalog (setKey emptyObject (lit "toString") (lit "Yes"))
        emptyObject = Except.ok [toStringRow] ∧
    toStringRow.evidence ≠ JSValue.str (lit "None") :=
  ⟨by decide, rfl, rfl, by decide, rfl, rfl, by decide⟩

/-- C3, amended: for every catalog none of whose ids is the name of a property
that plain objects inherit from `Object.prototype`, the report is built and
has exactly one row per catalog item in catalog order; the i-th row carries the
id and title of the i-th catalog item, its response is the recorded response
for that id when that is a non-empty string and the literal "Not answered" when
none is recorded or the recorded response is the empty string, its evidence is
the recorded evidence reference when that is a non-empty string and the literal
"None" otherwise, and its score and confidence are `mockAIScore` of the row's
response. For the catalog [CRI-01, CRI-02] with responses
CRI-01: "We keep a full inventory", CRI-02: "Partial" and no evidence the rows
are (CRI-01, 3, High, None) and (CRI-02, 1, Low, None). -/
theorem handleGenerateReport_rows (catalog : List Diagnostic)
    (responses evidence : JSObject JSString)
    (hid : ∀ d ∈ catalog, d.id ∉ objectPrototypeKeys) :
    (∃ rows, handleGenerateReport catalog responses evidence = Except.ok rows ∧
      rows.length = catalog.length ∧
      ∀ (i : Nat) (d : Diagnostic), catalog[i]? = some d →
        ∃ row, rows[i]? = some row ∧
          row.id = d.id ∧ row.title = d.title ∧
          (∀ r, responses d.id = some r → r ≠ [] → row.response = r) ∧
          ((responses d.id = none ∨ responses d.id = some []) →
            row.response = lit "Not answered") ∧
          (∀ e, evidence d.id = some e → e ≠ [] → row.evidence = JSValue.str e) ∧
          ((evidence d.id = none ∨ evidence d.id = some []) →
            row.evidence = JSValue.str (lit "None")) ∧
          row.score = (mockAIScore (some row.response)).score ∧
          row.confidence = (mockAIScore (some row.response)).confidence) ∧
    handleGenerateReport exampleCatalog exampleResponses emptyObject
      = Except.ok exampleRows := by
  refine ⟨⟨catalog.map (ownRow responses evidence),
    handleGenerateReport_of_plain_ids catalog responses evidence hid, by simp, ?_⟩, rfl⟩
  intro i d hd
  refine ⟨ownRow responses evidence d, ?_, rfl, rfl, ?_, ?_, ?_, ?_, rfl, rfl⟩
  · simp [List.getElem?_map, hd]
  · intro r hr hne
    cases r with
    | nil => exact absurd rfl hne
    | cons c cs => simp [ownRow, hr, orDefault]
  · rintro (h0 | h0) <;> simp [ownRow, h0, orDefault]
  · intro e he hne
    cases e with
    | nil => exact absurd rfl hne
    | cons c cs => simp [ownRow, he, orDefault]
  · rintro (h0 | h0) <;> simp [ownRow, h0, orDefault]

theorem handleGenerateReport_rows_witness :
    (∀ d ∈ exampleCatalog, d.id ∉ objectPrototypeKeys) ∧
    ∃ rows, handleGenerateReport exampleCatalog exampleResponses emptyObject
        = Except.ok rows ∧ rows.length = exampleCatalog.length :=
  ⟨by decide,
    let ⟨rows, hrows, hlen, _⟩ :=
      (handleGenerateReport_rows exampleCatalog exampleResponses emptyObject (by decide)).1
    ⟨rows, hrows, hlen⟩⟩

/-! ## CSV exporter -/

/-- C4: the CSV text is the literal header line
"Diagnostic ID,Title,Response,Confidence,Score,Evidence" followed, for each row
in input order, by a line feed and the six fields id, title, response,
confidence, score, evidence joined by single commas, nothing quoted or escaped;
for no rows it is exactly the header, with no trailing line feed; and it is what
follows the data-URI prefix in the string given to `encodeURI`. -/
theorem csvText_layout (data : List ReportRow) :
    csvText data =
      lit "Diagnostic ID,Title,Response,Confidence,Score,Evidence" ++
        (data.map (fun item => lit "\n" ++ jsJoin (lit ",") (rowFields item))).flatten ∧
    csvText [] = lit "Diagnostic ID,Title,Response,Confidence,Score,Evidence" ∧
    csvContent data = lit "data:text/csv;charset=utf-8," ++ csvText data := by
  exact ⟨csvText_eq_flatten data, by decide, rfl⟩

/-- C5 fails as stated: a row whose response is "a", a line feed, "b" has no
comma in any field, yet the naive reader returns two short lines for it, not
its six field values. -/
theorem csv_round_trip_line_feed_counterexample :
    (∀ f ∈ rowFields lineFeedRow, 44 ∉ f) ∧
    naiveParse (csvText [lineFeedRow])
      = [[lit "CRI-01", lit "T", lit "a"], [lit "b", lit "Low", lit "1", lit "None"]] ∧
    naiveParse (csvText [lineFeedRow])
      ≠ [rowFields lineFeedRow] := by
  decide

/-- C5, amended: for every list of report rows in which no field contains a
comma or a line feed, splitting the CSV text into lines, dropping the header
line and splitting every other line at commas recovers, in order, exactly the
six field values (id, title, response, confidence, score, evidence) of every
row. -/
theorem csv_round_trip (data : List ReportRow)
    (h : ∀ item ∈ data,
      ∀ f ∈ [item.id, item.title, item.response, item.confidence, item.evidence],
        44 ∉ f ∧ 10 ∉ f) :
    naiveParse (csvText data) = data.map rowFields := by
  have hfield : ∀ item ∈ data, ∀ sep, (sep = 44 ∨ sep = 10) →
      sep ∉ item.id ∧ sep ∉ item.title ∧ sep ∉ item.response ∧
        sep ∉ item.confidence ∧ sep ∉ item.evidence := by
    intro item hi sep hsep
    have g := h item hi
    simp only [List.mem_cons, List.mem_singleton, List.not_mem_nil, or_false,
      forall_eq_or_imp, forall_eq] at g
    obtain ⟨g1, g2, g3, g4, g5⟩ := g
    rcases hsep with rfl | rfl
    · exact ⟨g1.1, g2.1, g3.1, g4.1, g5.1⟩
    · exact ⟨g1.2, g2.2, g3.2, g4.2, g5.2⟩
  have hlines : splitOn 10 (csvText data) = csvHeader :: data.map csvLine := by
    have e : csvText data = jsJoin [10] (csvHeader :: data.map csvLine) := rfl
    rw [e]
    apply splitOn_jsJoin
    intro y hy
    rcases List.mem_cons.mp hy with rfl | hy
    · decide
    · obtain ⟨item, hi, rfl⟩ := List.mem_map.mp hy
      exact csvLine_not_mem 10 (by decide) (by decide) item (hfield item hi 10 (Or.inr rfl))
  have hrow : ∀ item ∈ data, splitOn 44 (csvLine item) = rowFields item := by
    intro item hi
    obtain ⟨f1, f2, f3, f4, f5⟩ := hfield item hi 44 (Or.inl rfl)
    have e : csvLine item = jsJoin [44] (rowFields item) := csvLine_eq_join item
    rw [e]
    apply splitOn_jsJoin
    intro y hy
    simp only [List.mem_cons, List.mem_singleton, List.not_mem_nil, or_false] at hy
    rcases hy with rfl | rfl | rfl | rfl | rfl | rfl
    · exact f1
    · exact f2
    · exact f3
    · exact f4
    · intro m
      have := numberToString_digit _ _ m
      omega
    · exact f5
  unfold naiveParse
  rw [hlines, List.drop_one, List.tail_cons, List.map_map]
  exact List.map_congr_left hrow

theorem csv_round_trip_witness :
    naiveParse (csvText [plainRow])
      = [[lit "CRI-01", lit "Asset Inventory", lit "Partial", lit "Low", lit "1",
          lit "None"]] :=
  csv_round_trip [plainRow] (by decide)

/-! ## Filter and pagination view -/

/-- C6: a diagnostic item is in the filtered list if and only if it is a
catalog item whose tierN flag is set for some N in the selected tiers and,
when the selected tag is non-empty, whose tag set contains that tag; with no
tier selected no item is included, and an item without tags is excluded
whenever a tag is selected. -/
theorem filtered_iff (diagnostics : List DiagnosticStatement) (selectedTiers : List Nat)
    (selectedTag : JSString) (d : DiagnosticStatement) :
    (d ∈ filtered diagnostics selectedTiers selectedTag ↔
      d ∈ diagnostics ∧ (∃ t ∈ selectedTiers, tierFlag d t = true) ∧
        (selectedTag ≠ [] → ∃ ts, d.tags = some ts ∧ selectedTag ∈ ts)) ∧
    filtered diagnostics [] selectedTag = [] ∧
    (selectedTag ≠ [] → (d.tags = none ∨ d.tags = some []) →
      d ∉ filtered diagnostics selectedTiers selectedTag) := by
  refine ⟨mem_filtered_iff diagnostics selectedTiers selectedTag d, ?_, ?_⟩
  · simp [filtered, matchTier]
  · intro hne htags hmem
    obtain ⟨ts, hts, hin⟩ :=
      ((mem_filtered_iff diagnostics selectedTiers selectedTag d).mp hmem).2.2 hne
    rcases htags with h0 | h0
    · rw [h0] at hts; cases hts
    · rw [h0] at hts; cases hts; simp at hin

/-- C7: for every page number at least 1 the items on the page are a
subsequence of the catalog in catalog order, every one of them passes the
tier and tag filter, and there are at most 10 of them; with the tier selection
{1}, no tag and page 1 only tier-1 items are returned. -/
theorem currentItems_page (diagnostics : List DiagnosticStatement) (selectedTiers : List Nat)
    (selectedTag : JSString) (currentPage : Int) (h : 1 ≤ currentPage) :
    List.Sublist (currentItems diagnostics selectedTiers selectedTag currentPage) diagnostics ∧
    (∀ d ∈ currentItems diagnostics selectedTiers selectedTag currentPage,
      (∃ t ∈ selectedTiers, tierFlag d t = true) ∧
        (selectedTag ≠ [] → ∃ ts, d.tags = some ts ∧ selectedTag ∈ ts)) ∧
    (currentItems diagnostics selectedTiers selectedTag currentPage).length ≤ 10 ∧
    (∀ d ∈ currentItems diagnostics [1] [] 1, d.tier1 = true) := by
  refine ⟨?_, ?_, pageItems_length_le _ currentPage h, ?_⟩
  · exact (jsSlice_sublist _ _ _).trans (List.filter_sublist _)
  · intro d hd
    have hf : d ∈ filtered diagnostics selectedTiers selectedTag :=
      (jsSlice_sublist _ _ _).subset hd
    exact ((mem_filtered_iff diagnostics selectedTiers selectedTag d).mp hf).2
  · intro d hd
    have hf : d ∈ filtered diagnostics [1] [] := (jsSlice_sublist _ _ _).subset hd
    obtain ⟨t, ht, hflag⟩ := ((mem_filtered_iff diagnostics [1] [] d).mp hf).2.1
    rw [List.mem_singleton.mp ht] at hflag
    exact hflag

theorem currentItems_page_witness :
    (1 : Int) ≤ 1 ∧
    currentItems sampleCatalog [1] [] 1 =
      [{ id := lit "D1", tier1 := true, tier2 := false, tier3 := false, tier4 := false,
         tags := some [lit "iam"] },
       { id := lit "D3", tier1 := true, tier2 := false, tier3 := true, tier4 := false,
         tags := some [lit "asset"] }] ∧
    ∀ d ∈ currentItems sampleCatalog [1] [] 1, d.tier1 = true :=
  ⟨by decide, by decide, (currentItems_page sampleCatalog [1] [] 1 (by decide)).2.2.2⟩

/-- C8 fails as stated: for the empty filtered list `totalPages` is 0, not at
least 1. -/
theorem totalPages_empty_counterexample :
    totalPages ([] : List DiagnosticStatement) = 0 ∧
    ¬ 1 ≤ totalPages ([] : List DiagnosticStatement) := by
  decide

/-- C8, amended: `totalPages` equals the ceiling of (number of filtered items
/ 10); it is 0 when the filtered list is empty and at least 1 otherwise. -/
theorem totalPages_ceil {α : Type} (filteredList : List α) :
    ((totalPages filteredList : Nat) : Int) = ⌈((filteredList.length : Nat) : ℚ) / 10⌉ ∧
    (filteredList = [] → totalPages filteredList = 0) ∧
    (filteredList ≠ [] → 1 ≤ totalPages filteredList) := by
  refine ⟨?_, ?_, ?_⟩
  · symm
    rw [Int.ceil_eq_iff]
    have hq : (0 : ℚ) < 10 := by norm_num
    unfold totalPages mathCeilDiv itemsPerPage
    generalize filteredList.length = n
    constructor
    · rw [lt_div_iff₀ hq]
      have : ((if n % 10 = 0 then n / 10 else n / 10 + 1 : Nat) : Int) * 10 < n + 10 := by
        split <;> omega
      have h2 : (((if n % 10 = 0 then n / 10 else n / 10 + 1 : Nat) : Int) : ℚ) * 10
          < ((n + 10 : Int) : ℚ) := by exact_mod_cast this
      push_cast at h2 ⊢
      linarith
    · rw [div_le_iff₀ hq]
      have : (n : Int) ≤ ((if n % 10 = 0 then n / 10 else n / 10 + 1 : Nat) : Int) * 10 := by
        split <;> omega
      have h2 : ((n : Int) : ℚ)
          ≤ (((if n % 10 = 0 then n / 10 else n / 10 + 1 : Nat) : Int) : ℚ) * 10 := by
        exact_mod_cast this
      push_cast at h2 ⊢
      linarith
  · intro h0
    subst h0
    simp [totalPages, mathCeilDiv]
  · intro hne
    have hpos : 0 < filteredList.length := List.length_pos.mpr hne
    have := mathCeilDiv_mul_ge filteredList.length
    unfold totalPages itemsPerPage
    omega

/-- C9: for every filtered list and every page number greater than
`totalPages` the page is computed (the slice is total, it has no error path)
and its item list is empty, so no item beyond the last page is returned. -/
theorem currentItems_beyond_last_page (diagnostics : List DiagnosticStatement)
    (selectedTiers : List Nat) (selectedTag : JSString) (currentPage : Int)
    (h : (totalPages (filtered diagnostics selectedTiers selectedTag) : Int) < currentPage) :
    currentItems diagnostics selectedTiers selectedTag currentPage = [] :=
  pageItems_beyond _ currentPage h

theorem currentItems_beyond_last_page_witness :
    totalPages (filtered sampleCatalog [1] []) = 1 ∧
    currentItems sampleCatalog [1] [] 2 = [] :=
  ⟨by decide, currentItems_beyond_last_page sampleCatalog [1] [] 2 (by decide)⟩

/-- C10 evaluated at 10 pages with current page 5: the page buttons are
4, 5, 6, 7, while the window centred on page 5 is 3, 4, 5, 6, 7. -/
theorem visiblePages_ten_five :
    visiblePages 10 5 = [4, 5, 6, 7] ∧ centredWindow 10 5 = [3, 4, 5, 6, 7] := by
  decide

/-! ## Evidence upload -/

/-- C11: in both versions of `handleFileUpload`, when the store reports
success with stored path p the new evidence map sends the id to p and leaves
the entry of every other id unchanged; when the store reports an error or
throws, the evidence map is unchanged, so a prior reference for the id, or its
absence, is retained (and so it is when no file was chosen). -/
theorem handleFileUpload_evidence (evidence : JSObject JSString) (id name : JSString)
    (upload : JSString → UploadOutcome) :
    (∀ p, upload (uploadPath id name) = UploadOutcome.stored p →
      ((handleFileUpload evidence id (some name) upload).1 id = some p ∧
        ∀ j, j ≠ id → (handleFileUpload evidence id (some name) upload).1 j = evidence j) ∧
      ((App.handleFileUpload evidence id (some name) upload).1 id = some p ∧
        ∀ j, j ≠ id →
          (App.handleFileUpload evidence id (some name) upload).1 j = evidence j)) ∧
    ((upload (uploadPath id name) = UploadOutcome.failed ∨
        upload (uploadPath id name) = UploadOutcome.thrown) →
      (handleFileUpload evidence id (some name) upload).1 = evidence ∧
      (App.handleFileUpload evidence id (some name) upload).1 = evidence) ∧
    ((handleFileUpload evidence id none upload).1 = evidence ∧
      (App.handleFileUpload evidence id none upload).1 = evidence) := by
  refine ⟨?_, ?_, rfl, rfl⟩
  · intro p hp
    simp only [handleFileUpload, App.handleFileUpload, hp, setKey, if_true, true_and]
    constructor <;> intro j hj <;> simp [hj]
  · rintro (h | h) <;> simp [handleFileUpload, App.handleFileUpload, h]

/-! ## Cached scores of the component state -/

theorem applyOp_fresh (s : PlatformState) (op : PlatformOp)
    (h : ∀ id, s.aiScores id = (s.responses id).map (fun r => mockAIScore (some r))) :
    ∀ id, (applyOp s op).aiScores id =
      ((applyOp s op).responses id).map (fun r => mockAIScore (some r)) := by
  intro id
  cases op with
  | responseChange k value =>
    simp only [applyOp, handleResponseChange, setKey]
    split
    · rfl
    · exact h id
  | evidenceUpload k file outcome =>
    cases file with
    | none => exact h id
    | some name => cases outcome <;> exact h id

theorem runOps_fresh (ops : List PlatformOp) (s : PlatformState)
    (h : ∀ id, s.aiScores id = (s.responses id).map (fun r => mockAIScore (some r))) :
    ∀ id, (runOps s ops).aiScores id =
      ((runOps s ops).responses id).map (fun r => mockAIScore (some r)) := by
  induction ops generalizing s with
  | nil => exact h
  | cons op rest ih => exact ih (applyOp s op) (applyOp_fresh s op h)

/-- C12: starting from empty responses and aiScores maps, after any finite
sequence of `handleResponseChange` and `handleEvidenceUpload` operations, for
every diagnostic id the aiScores map has an entry exactly when the responses
map has one, and that entry is `mockAIScore` of the current response of the
id; `handleEvidenceUpload` changes neither map. -/
theorem aiScores_never_stale (ops : List PlatformOp) (id : JSString) :
    ((runOps initialState ops).aiScores id ≠ none ↔
      (runOps initialState ops).responses id ≠ none) ∧
    (∀ r, (runOps initialState ops).responses id = some r →
      (runOps initialState ops).aiScores id = some (mockAIScore (some r))) ∧
    (∀ (s : PlatformState) (k : JSString) (file : Option JSString)
        (upload : JSString → UploadOutcome),
      (handleEvidenceUpload s k file upload).responses = s.responses ∧
      (handleEvidenceUpload s k file upload).aiScores = s.aiScores) := by
  have hinv := runOps_fresh ops initialState (fun _ => rfl) id
  refine ⟨?_, ?_, ?_⟩
  · rw [hinv]
    cases (runOps initialState ops).responses id <;> simp
  · intro r hr
    rw [hinv, hr]
    rfl
  · intro s k file upload
    cases file with
    | none => exact ⟨rfl, rfl⟩
    | some name =>
      simp only [handleEvidenceUpload]
      cases upload (uploadPath k name) <;> exact ⟨rfl, rfl⟩

/-! ## Scores of the report rows -/

theorem orDefault_ne_nil (a : Option JSString) (d : JSString) (hd : d ≠ []) :
    orDefault a d ≠ [] := by
  unfold orDefault
  split
  · exact hd
  · exact hd
  · exact List.cons_ne_nil _ _

theorem mockAIScore_score_of_ne_nil (s : JSString) (hs : s ≠ []) :
    (mockAIScore (some s)).score = 1 ∨ (mockAIScore (some s)).score = 2 ∨
      (mockAIScore (some s)).score = 3 := by
  cases s with
  | nil => exact absurd rfl hs
  | cons c cs =>
    simp only [mockAIScore]
    split
    · exact Or.inr (Or.inr rfl)
    · split
      · exact Or.inr (Or.inl rfl)
      · exact Or.inl rfl

theorem mockAIScore_short (s : JSString) (hs : s ≠ []) (hlen : s.length ≤ 40)
    (h1 : ¬ List.IsInfix (lit "least privilege") s) (h2 : ¬ List.IsInfix (lit "inventory") s) :
    mockAIScore (some s) = { score := 1, confidence := lit "Low" } := by
  have e1 : includes s (lit "least privilege") = false := by
    rw [← Bool.not_eq_true, includes_iff_infix]; exact h1
  have e2 : includes s (lit "inventory") = false := by
    rw [← Bool.not_eq_true, includes_iff_infix]; exact h2
  cases s with
  | nil => exact absurd rfl hs
  | cons c cs =>
    have hl : ¬ (c :: cs).length > 40 := by omega
    simp only [mockAIScore, e1, e2, Bool.or_self, Bool.false_eq_true, if_false, hl]

theorem reportRow_ok (responses evidence : JSObject JSString) (d : Diagnostic)
    (row : SummaryRow) (h : reportRow responses evidence d = Except.ok row) :
    row.response ≠ [] ∧ row.score = (mockAIScore (some row.response)).score ∧
      row.confidence = (mockAIScore (some row.response)).confidence := by
  unfold reportRow at h
  simp only at h
  split at h
  · cases h
  · rename_i r hr
    cases h
    refine ⟨?_, rfl, rfl⟩
    show r ≠ []
    unfold valueOrDefault at hr
    split at hr
    · cases hr; decide
    · cases hr; exact orDefault_ne_nil _ _ (by decide)
    · cases hr

/-- Whenever the report is built, every row has score 1, 2 or 3. -/
theorem report_score_pos (catalog : List Diagnostic) (responses evidence : JSObject JSString)
    (rows : List SummaryRow)
    (h : handleGenerateReport catalog responses evidence = Except.ok rows) :
    ∀ row ∈ rows, row.score = 1 ∨ row.score = 2 ∨ row.score = 3 := by
  induction catalog generalizing rows with
  | nil =>
    cases h
    intro row hrow
    cases hrow
  | cons d rest ih =>
    unfold handleGenerateReport at h
    split at h
    · cases h
    · rename_i row0 hrow0
      split at h
      · cases h
      · rename_i rows0 hrows0
        cases h
        intro row hrow
        rcases List.mem_cons.mp hrow with rfl | hmem
        · obtain ⟨hne, hscore, _⟩ := reportRow_ok responses evidence d _ hrow0
          rw [hscore]
          exact mockAIScore_score_of_ne_nil _ hne
        · exact ih rows0 hrows0 row hmem

/-- C13 evaluated at a catalog whose one item has the id "constructor", with
nothing recorded: the read of the response gives the inherited function, which
`||` keeps, `mockAIScore` throws a TypeError and no report is built, where the
claim has a row with "Not answered", score 1 and confidence "Low". -/
theorem handleGenerateReport_constructor_throws :
    getProp (emptyObject : JSObject JSString) (lit "constructor") = some JSValue.inherited ∧
    valueOrDefault (getProp (emptyObject : JSObject JSString) (lit "constructor"))
        (lit "Not answered") = JSValue.inherited ∧
    handleGenerateReport constructorCatalog emptyObject emptyObject
      = Except.error JSError.typeError :=
  ⟨by decide, by decide, rfl⟩

/-! ## The pages partition the filtered list -/

theorem pageItems_succ {α : Type} (xs : List α) (i : Nat) :
    pageItems xs ((i : Int) + 1) = (xs.drop (10 * i)).take 10 := by
  simp only [pageItems, jsSlice, startIndex, itemsPerPage]
  have h1 : ¬ ((i : Int) + 1 - 1) * ((10 : Nat) : Int) < 0 := by push_cast; omega
  have h2 : ¬ ((i : Int) + 1 - 1) * ((10 : Nat) : Int) + ((10 : Nat) : Int) < 0 := by
    push_cast; omega
  rw [if_neg h1, if_neg h2]
  apply List.ext_getElem
  · simp only [List.length_take, List.length_drop]
    push_cast
    omega
  · intro n hn1 hn2
    simp only [List.length_take, List.length_drop] at hn1 hn2
    simp only [List.getElem_take, List.getElem_drop]
    congr 1
    push_cast
    omega

theorem flatMap_chunks {α : Type} (xs : List α) (n : Nat) :
    (List.range n).flatMap (fun i => (xs.drop (10 * i)).take 10) = xs.take (10 * n) := by
  induction n with
  | zero => simp
  | succ n ih =>
    rw [List.range_succ, List.flatMap_append, ih]
    simp only [List.flatMap_cons, List.flatMap_nil, List.append_nil]
    rw [Nat.mul_succ, List.take_add]

theorem mathCeilDiv_pred_lt (a : Nat) (h : 1 ≤ mathCeilDiv a 10) :
    (mathCeilDiv a 10 - 1) * 10 < a := by
  unfold mathCeilDiv at h ⊢
  split at h <;> rename_i hr <;> simp only [hr, if_true, if_false] <;> omega

theorem pageItems_length {α : Type} (xs : List α) (i : Nat) :
    (pageItems xs ((i : Int) + 1)).length = min 10 (xs.length - 10 * i) := by
  rw [pageItems_succ, List.length_take, List.length_drop]

theorem pages_concat {α : Type} (xs : List α) :
    (List.range (totalPages xs)).flatMap (fun i => pageItems xs ((i : Int) + 1)) = xs := by
  have hge := mathCeilDiv_mul_ge xs.length
  have e : (fun i : Nat => pageItems xs ((i : Int) + 1)) =
      fun i => (xs.drop (10 * i)).take 10 := by
    funext i
    exact pageItems_succ xs i
  rw [e, flatMap_chunks]
  apply List.take_of_length_le
  unfold totalPages itemsPerPage
  omega

/-- C14: concatenating the page items for page 1, 2, ..., `totalPages` in order
yields exactly the filtered list (for any list, and so for `currentItems` over
`filtered`); every page before the last holds exactly 10 items, and the last
page holds between 1 and 10 items. Pages are numbered from 1 to `totalPages`,
so the empty list, which has 0 pages, has no last page. -/
theorem pages_partition {α : Type} (filteredList : List α) :
    (List.range (totalPages filteredList)).flatMap
        (fun i => pageItems filteredList ((i : Int) + 1)) = filteredList ∧
    (∀ p : Nat, 1 ≤ p → p < totalPages filteredList →
      (pageItems filteredList (p : Int)).length = 10) ∧
    (∀ p : Nat, 1 ≤ p → p = totalPages filteredList →
      1 ≤ (pageItems filteredList (p : Int)).length ∧
        (pageItems filteredList (p : Int)).length ≤ 10) ∧
    (∀ (diagnostics : List DiagnosticStatement) (selectedTiers : List Nat)
        (selectedTag : JSString),
      (List.range (totalPages (filtered diagnostics selectedTiers selectedTag))).flatMap
          (fun i => currentItems diagnostics selectedTiers selectedTag ((i : Int) + 1))
        = filtered diagnostics selectedTiers selectedTag) := by
  refine ⟨pages_concat filteredList, ?_, ?_, fun diagnostics selectedTiers selectedTag =>
    pages_concat (filtered diagnostics selectedTiers selectedTag)⟩
  · intro p hp1 hp2
    obtain ⟨i, rfl⟩ : ∃ i, p = i + 1 := ⟨p - 1, by omega⟩
    have hlt := mathCeilDiv_pred_lt filteredList.length (by
      unfold totalPages itemsPerPage at hp2; omega)
    have hlen := pageItems_length filteredList i
    push_cast
    rw [hlen]
    unfold totalPages itemsPerPage at hp2
    omega
  · intro p hp1 hp2
    obtain ⟨i, rfl⟩ : ∃ i, p = i + 1 := ⟨p - 1, by omega⟩
    have hlt := mathCeilDiv_pred_lt filteredList.length (by
      unfold totalPages itemsPerPage at hp2; omega)
    have hlen := pageItems_length filteredList i
    push_cast
    rw [hlen]
    unfold totalPages itemsPerPage at hp2
    omega

end CRI
